import Mathlib

/- Verification of the Holt-Winters sales forecasting pipeline in `main.py`
   against its design specification: the Series Loader
   (`load_and_preprocess_data`), the Holt-Winters Engine wrapper
   (`run_holt_winters_forecast`, cached with `st.cache_resource`), and the
   tab-3 presentation code (None guard, forecast table, CSV export).
   Machine reals are modelled as rationals; pandas/statsmodels/streamlit
   primitives that the code calls are embedded explicitly below. -/

/- Timestamps are calendar month starts; a month is counted as
`year * 12 + (month - 1)` (a plain Nat), so `+1` is "one calendar month
later". -/

/-- A monthly-frequency series as produced by `series.asfreq('MS')` in the
loader: a first month plus one slot per consecutive month.  `none` models a
`NaN` slot produced by re-indexing over an interior calendar gap. -/
structure MSeries where
  start : Nat
  values : List (Option ℚ)
deriving DecidableEq

/-- `series.index[-1]`: the last historical month of the series. -/
def MSeries.lastTimestamp (s : MSeries) : Nat :=
  s.start + s.values.length - 1

/-- All slots present (the spec's `TimeSeries` invariant: numeric,
non-missing values): returns the plain value list, or `none` as soon as a
slot is missing (statsmodels rejects NaN input, modelled as a failure). -/
def denseVals : List (Option ℚ) → Option (List ℚ)
  | [] => some []
  | none :: _ => none
  | some v :: rest => (denseVals rest).map (fun vs => v :: vs)

/-- `TREND_TYPE` from main.py: multiplicative trend. -/
def TREND_TYPE : String := "mul"

/-- `SEASONAL_TYPE` from main.py: multiplicative seasonality. -/
def SEASONAL_TYPE : String := "mul"

/-- `seasonal_periods=12` from main.py: monthly data, annual cycle. -/
def seasonal_periods : Nat := 12

/-- Modelled from the spec: smoothing coefficient α of the optimizer
(statsmodels `fit()` is library code external to this repository).  The
spec requires only α, β, γ ∈ (0,1) chosen by a deterministic optimizer
("exact algorithm is an implementation choice, not a contract"), so a
fixed closed-form choice is used. -/
def hwAlpha : ℚ := 1 / 2

/-- Modelled from the spec: smoothing coefficient β (see `hwAlpha`). -/
def hwBeta : ℚ := 1 / 10

/-- Modelled from the spec: smoothing coefficient γ (see `hwAlpha`). -/
def hwGamma : ℚ := 1 / 10

/-- The fitted smoothing state: final level, trend and seasonal components
plus the smoothing coefficients (spec §3, `FittedModel`). -/
structure FittedModel where
  level : ℚ
  trend : ℚ
  seasonals : List ℚ
  alpha : ℚ
  beta : ℚ
  gamma : ℚ

/-- An ordered sequence of (future month, predicted value) pairs
(spec §3, `Forecast`). -/
structure Forecast where
  entries : List (Nat × ℚ)

/-- Failure modes of the engine: fewer than two full seasonal cycles
(statsmodels raises a ValueError about initial seasonals, the spec's
`InsufficientDataError`), or a NaN slot in the input series. -/
inductive EngineError where
  | insufficientData
  | nanInData
deriving DecidableEq

/-- Mean of a list of rationals (division by zero yields 0 in ℚ). -/
def listMean (l : List ℚ) : ℚ := l.sum / l.length

/-- Modelled from the spec: "estimated" initialization — initial level and
trend from the means of the first two seasonal cycles, initial seasonal
indices from the first cycle relative to the initial level (spec §4.2:
"derived from the data, e.g. via a seasonal decomposition of the first
cycles"). -/
def hwInit (vals : List ℚ) : ℚ × ℚ × List ℚ :=
  let c1 := vals.take seasonal_periods
  let c2 := (vals.drop seasonal_periods).take seasonal_periods
  let l0 := listMean c1
  (l0, listMean c2 / listMean c1, c1.map (fun y => y / l0))

/-- One observation update of the multiplicative Holt-Winters recursions
(spec §4.2); the seasonal state is a queue whose head is `s_{t-period}`. -/
def hwStep : ℚ × ℚ × List ℚ → ℚ → ℚ × ℚ × List ℚ
  | (l, b, ss), y =>
    let sOld := ss.headD 1
    let l' := hwAlpha * (y / sOld) + (1 - hwAlpha) * (l * b)
    let b' := hwBeta * (l' / l) + (1 - hwBeta) * b
    let s' := hwGamma * (y / l') + (1 - hwGamma) * sOld
    (l', b', ss.tail ++ [s'])

/-- Modelled from the spec: fitting (`model.fit()`), i.e. running the
multiplicative recursions over the observations after the first cycle,
starting from the estimated initial state. -/
def hwFit (vals : List ℚ) : FittedModel :=
  let (l0, b0, s0) := hwInit vals
  let (l, b, ss) := (vals.drop seasonal_periods).foldl hwStep (l0, b0, s0)
  ⟨l, b, ss, hwAlpha, hwBeta, hwGamma⟩

/-- Modelled from the spec: `model_fit.forecast(h)` — the forecast for
steps 1..h.  Timestamps are the `h` consecutive months starting at
`firstMonth` (one past the last historical month); values follow spec
§4.2, `ŷ_{T+h} = (ℓ_T · b_T^h) · s`, the seasonal index taken cyclically. -/
def hwForecast (firstMonth : Nat) (m : FittedModel) (h : Nat) : Forecast :=
  ⟨(List.range h).map (fun i =>
    (firstMonth + i,
     m.level * m.trend ^ (i + 1) * m.seasonals.getD (i % seasonal_periods) 1))⟩

/-- Modelled from the spec: the Holt-Winters engine — the body of the `try`
block of `run_holt_winters_forecast` (`ExponentialSmoothing(series,
seasonal_periods=12, trend=TREND_TYPE, seasonal=SEASONAL_TYPE,
initialization_method="estimated")`, `model.fit()`,
`model_fit.forecast(n_months)`), which is statsmodels library code external
to the repository.  Rejects a NaN slot and a series shorter than two
seasonal cycles; otherwise fits and forecasts per spec §4.2. -/
def engineCompute (s : MSeries) (n_months : Nat) :
    Except EngineError (FittedModel × Forecast) :=
  match denseVals s.values with
  | none => .error .nanInData
  | some vals =>
    if vals.length < 2 * seasonal_periods then .error .insufficientData
    else
      .ok (hwFit vals, hwForecast (s.start + s.values.length) (hwFit vals) n_months)

/-- `run_holt_winters_forecast` from main.py: runs the engine inside
`try`, catching every exception, reporting it with `st.error`, and
returning the sentinel pair `(None, None)`, modelled as `none`. -/
def run_holt_winters_forecast (series : MSeries) (n_months : Nat) :
    Option (FittedModel × Forecast) :=
  match engineCompute series n_months with
  | .ok r => some r
  | .error _ => none

/-- A separate invocation of the fit-and-forecast operation; `runIndex`
tags which run it is.  Each button press calls the same (cached) function
with the same arguments, so the run index plays no role in the result. -/
def fit_and_forecast_run (runIndex : Nat) (series : MSeries) (n_months : Nat) :
    Option (FittedModel × Forecast) :=
  run_holt_winters_forecast series n_months

/-- Sample dense series: 24 months of constant sales starting at month 600
(January of year 50). -/
def sampleSeries24 : MSeries := ⟨600, List.replicate 24 (some 10)⟩

/-- Sample short series: only 10 monthly observations. -/
def sampleSeriesShort : MSeries := ⟨600, List.replicate 10 (some 5)⟩

/-- The decimal digit character for `d` (0–9). -/
def digitChar (d : Nat) : Char := Char.ofNat (48 + d)

/-- Decimal value of a digit character. -/
def digitVal (c : Char) : Nat := c.toNat - 48

/-- Whether `c` is a decimal digit character. -/
def isDigitChar (c : Char) : Bool := 48 ≤ c.toNat && c.toNat ≤ 57

/-- Decimal digit characters of a natural number, most significant first
(how pandas renders the integral part of a value). -/
def natToChars (n : Nat) : List Char :=
  if h : n < 10 then [digitChar n]
  else natToChars (n / 10) ++ [digitChar (n % 10)]
decreasing_by
  exact Nat.div_lt_self (by omega) (by norm_num)

/-- Decimal rendering of an integer: optional minus sign then digits. -/
def intToChars (z : ℤ) : List Char :=
  if z < 0 then '-' :: natToChars z.natAbs else natToChars z.toNat

/-- Horner accumulation of a digit-character list into a natural number. -/
def digitFold (cs : List Char) : Nat :=
  cs.foldl (fun a c => a * 10 + digitVal c) 0

/-- Parse a non-empty all-digit character list; anything else is `none`. -/
def parseDigits (cs : List Char) : Option Nat :=
  if cs.isEmpty then none
  else if cs.all isDigitChar then some (digitFold cs) else none

/-- The value-coercion core on an unsigned token: digits with an optional
single fractional part (`"123"` or `"123.0"`); any other shape coerces to
`none` (pandas `NaN`). -/
def toNumericCore (cs : List Char) : Option ℚ :=
  match cs.dropWhile (fun c => !(c == '.')) with
  | [] => (parseDigits cs).map (fun n => (n : ℚ))
  | _ :: fs =>
    match parseDigits (cs.takeWhile (fun c => !(c == '.'))), parseDigits fs with
    | some n, some fr => some ((n : ℚ) + (fr : ℚ) / 10 ^ fs.length)
    | _, _ => none

/-- The Loader's value-coercion logic, `pd.to_numeric(col, errors='coerce')`
on one cell: a numeric token parses to its value, anything else to `none`
(pandas `NaN`, subsequently dropped by `.dropna()`). -/
def toNumeric (cs : List Char) : Option ℚ :=
  match cs with
  | [] => none
  | c :: rest => if c = '-' then (toNumericCore rest).map (fun q => -q) else toNumericCore cs

/-- `forecast.round(0)` — numpy rounding to the nearest integer, ties to
even. -/
def roundHalfEven (q : ℚ) : ℤ :=
  if q - (⌊q⌋ : ℚ) < 1 / 2 then ⌊q⌋
  else if 1 / 2 < q - (⌊q⌋ : ℚ) then ⌊q⌋ + 1
  else if ⌊q⌋ % 2 = 0 then ⌊q⌋ else ⌊q⌋ + 1

/-- Left-pad a digit list with zeros to width `k` (strftime zero padding). -/
def padChars (k : Nat) (cs : List Char) : List Char :=
  List.replicate (k - cs.length) '0' ++ cs

/-- `strftime('%Y-%m-%d')` on a month-start timestamp: `YYYY-MM-01`. -/
def formatMonthCell (ts : Nat) : List Char :=
  padChars 4 (natToChars (ts / 12)) ++ ['-'] ++
    padChars 2 (natToChars (ts % 12 + 1)) ++ ['-', '0', '1']

/-- The exported value cell: `forecast.round(0)` written by `to_csv` (a
float64 integer renders as digits followed by `.0`). -/
def formatValueCell (q : ℚ) : List Char :=
  intToChars (roundHalfEven q) ++ ['.', '0']

/-- The rows of `forecast_df` as exported to CSV: month formatted
`YYYY-MM-DD`, value rounded to the nearest whole unit. -/
def forecastTable (f : Forecast) : List (List Char × List Char) :=
  f.entries.map (fun e => (formatMonthCell e.1, formatValueCell e.2))

/-- The tab-3 button handler: run the forecast; if `model_fit is None`,
warn and `st.stop()` rendering no table (`none`); otherwise render and
offer for download the complete forecast table. -/
def runForecastAction (series : MSeries) (n_months : Nat) :
    Option (List (List Char × List Char)) :=
  match run_holt_winters_forecast series n_months with
  | none => none
  | some mf => some (forecastTable mf.2)

/-- A raw tabular data source (the CSV as read by `pd.read_csv`): named
columns in order, each a list of cell character strings. -/
structure RawTable where
  cols : List (String × List (List Char))

/-- `df.columns`: the column names in order. -/
def colNames (t : RawTable) : List String := t.cols.map Prod.fst

/-- Whether `pat` occurs contiguously inside `l` (Python's `in` on
strings). -/
def containsSeq (pat : List Char) : List Char → Bool
  | [] => pat.isPrefixOf []
  | c :: rest => pat.isPrefixOf (c :: rest) || containsSeq pat rest

/-- `'date' in col.lower()`: the test used at line 48 of main.py to
identify the date column — purely by name. -/
def hasDateToken (name : String) : Bool :=
  containsSeq ['d', 'a', 't', 'e'] (name.toList.map Char.toLower)

/-- Column selection, main.py lines 48–49: `date_col` is the first column
whose lowercased name contains `'date'`; `value_col` is the first column
whose name differs from `date_col` (`col not in [date_col]`).  Either
`[...][0]` raises Python's `IndexError` when its comprehension is empty,
modelled as `none`. -/
def selectColumns (t : RawTable) : Option (String × String) :=
  match (colNames t).find? hasDateToken with
  | none => none
  | some dc =>
    match (colNames t).find? (fun c => decide (¬ c = dc)) with
    | none => none
    | some vc => some (dc, vc)

/-- `df[name]`: the cells of the first column called `name`. -/
def getCol (t : RawTable) (name : String) : List (List Char) :=
  match t.cols.find? (fun c => decide (c.1 = name)) with
  | none => []
  | some c => c.2

/-- A parsed calendar date: month index (`year * 12 + month - 1`) plus the
day of month. -/
structure Date where
  ym : Nat
  day : Nat
deriving DecidableEq

/-- `pd.to_datetime` on one `YYYY-MM-DD` cell (the format used by the
repository's data files and by the exporter); an unparseable cell raises,
modelled as `none`. -/
def parseDate (cs : List Char) : Option Date :=
  match cs with
  | [y1, y2, y3, y4, '-', m1, m2, '-', d1, d2] =>
    if ([y1, y2, y3, y4, m1, m2, d1, d2] : List Char).all isDigitChar then
      if 1 ≤ digitFold [m1, m2] ∧ digitFold [m1, m2] ≤ 12 ∧
          1 ≤ digitFold [d1, d2] ∧ digitFold [d1, d2] ≤ 31 then
        some ⟨digitFold [y1, y2, y3, y4] * 12 + (digitFold [m1, m2] - 1),
              digitFold [d1, d2]⟩
      else none
    else none
  | _ => none

/-- Lexicographic (chronological) order on dates. -/
def dateLE (a b : Date) : Bool :=
  decide (a.ym < b.ym) || (decide (a.ym = b.ym) && decide (a.day ≤ b.day))

/-- The value re-indexed at a given month start: the first row whose date
is exactly the first of that month (`asfreq` takes values at exactly
matching timestamps only). -/
def monthStartLookup (rows : List (Date × ℚ)) (m : Nat) : Option ℚ :=
  (rows.find? (fun r => decide (r.1.ym = m ∧ r.1.day = 1))).map Prod.snd

/-- `series.asfreq('MS')`: re-index to the month starts lying between the
earliest and latest row dates; a month start with no exactly-matching row
becomes a `NaN` slot.  An empty series stays empty. -/
def asfreqMS (rows : List (Date × ℚ)) : MSeries :=
  match rows with
  | [] => ⟨0, []⟩
  | r0 :: _ =>
    let dmin := rows.foldl (fun a r => if dateLE r.1 a then r.1 else a) r0.1
    let dmax := rows.foldl (fun a r => if dateLE a r.1 then r.1 else a) r0.1
    let startM := if dmin.day = 1 then dmin.ym else dmin.ym + 1
    ⟨startM, (List.range (dmax.ym + 1 - startM)).map
      (fun i => monthStartLookup rows (startM + i))⟩

/-- Failures of the loader: `indexError` models Python's builtin
`IndexError` raised by an empty `[...][0]` subscript (lines 48–49);
`dateParseFailure` models `pd.to_datetime` raising on an unparseable cell
(line 51).  Neither is caught inside the function — its `try` wraps only
`pd.read_csv` — so both propagate out of the loader uncaught. -/
inductive LoadError where
  | indexError
  | dateParseFailure
deriving DecidableEq

/-- `load_and_preprocess_data` from main.py, beginning after the CSV has
been read into a table: pick the date column by name and the first other
column as values (lines 48–49), parse the dates (line 51), coerce the
values to numeric dropping failed rows (line 54), and re-index to
monthly-start frequency (line 55). -/
def load_and_preprocess_data (t : RawTable) : Except LoadError MSeries :=
  match selectColumns t with
  | none => .error .indexError
  | some (dc, vc) =>
    match (getCol t dc).mapM parseDate with
    | none => .error .dateParseFailure
    | some dates =>
      .ok (asfreqMS ((dates.zip (getCol t vc)).filterMap
        (fun dv => (toNumeric dv.2).map (fun q => (dv.1, q)))))

/-- Outcome of the script's load phase (main.py lines 107–111). -/
inductive LoadOutcome where
  | crash (e : LoadError)
  | halt
  | proceed (s : MSeries)
deriving DecidableEq

/-- The script's load phase: load the series; an uncaught loader exception
aborts the run; an empty loaded series hits the `series.empty` guard,
which shows a generic message and calls `st.stop()`; otherwise the app
proceeds with the series. -/
def appLoadPhase (t : RawTable) : LoadOutcome :=
  match load_and_preprocess_data t with
  | .error e => .crash e
  | .ok s => if s.values.isEmpty then .halt else .proceed s

/-- A table whose two column names contain no 'date' token. -/
def noDateTable : RawTable :=
  ⟨[("waktu", [['2','0','2','0','-','0','1','-','0','1']]),
    ("nilai", [['4','2']])]⟩

/-- A table with a proper date column whose value cells are all
non-numeric. -/
def badValuesTable : RawTable :=
  ⟨[("date", [['2','0','2','0','-','0','1','-','0','1'],
              ['2','0','2','0','-','0','2','-','0','1']]),
    ("sales", [['a','b','c'], ['x','y','z']])]⟩

/-- A well-formed two-column table for the column-selection witness. -/
def goodTable : RawTable :=
  ⟨[("tanggal_date", [['2','0','2','0','-','0','1','-','0','1']]),
    ("penjualan", [['7']])]⟩

/-- The cache key: a fingerprint of the series content — timestamps
(start month and, implicitly, length) and values — plus the horizon. -/
abbrev CacheKey := Nat × List (Option ℚ) × Nat

/-- Modelled from the spec: the fingerprint `@st.cache_resource` derives
from the argument values of `run_holt_winters_forecast` (streamlit
library code external to the repository): series content plus horizon. -/
def fingerprint (series : MSeries) (n_months : Nat) : CacheKey :=
  (series.start, series.values, n_months)

/-- The memo table of the Forecast Cache, newest entry first. -/
structure CacheState where
  entries : List (CacheKey × Option (FittedModel × Forecast))

/-- Association-list lookup by cache key. -/
def lookupKey : List (CacheKey × Option (FittedModel × Forecast)) → CacheKey →
    Option (Option (FittedModel × Forecast))
  | [], _ => none
  | (k, v) :: rest, k' => if k' = k then some v else lookupKey rest k'

/-- Modelled from the spec: `get_or_compute` — the behaviour of
`@st.cache_resource` wrapped around `run_holt_winters_forecast`.  A hit
returns the stored pair without invoking the wrapped function; a miss
invokes it and stores the result (the sentinel `(None, None)` included).
The final Bool reports whether the compute function was invoked. -/
def get_or_compute (c : CacheState) (series : MSeries) (n_months : Nat) :
    Option (FittedModel × Forecast) × CacheState × Bool :=
  match lookupKey c.entries (fingerprint series n_months) with
  | some v => (v, c, false)
  | none =>
    (run_holt_winters_forecast series n_months,
     ⟨(fingerprint series n_months,
       run_holt_winters_forecast series n_months) :: c.entries⟩,
     true)

/-- The series with the observation at slot `i` replaced by `w`. -/
def MSeries.setVal (s : MSeries) (i : Nat) (w : ℚ) : MSeries :=
  ⟨s.start, s.values.set i (some w)⟩

/-- The cache at process start: no entries. -/
def emptyCache : CacheState := ⟨[]⟩

/-- Sample two-month series for the cache witness. -/
def sampleCacheSeries : MSeries := ⟨0, [some 1, some 2]⟩

-- ======================================================================
-- Theorems
-- ======================================================================

theorem denseVals_length :
    ∀ (l : List (Option ℚ)) (vs : List ℚ), denseVals l = some vs → vs.length = l.length := by
  intro l
  induction l with
  | nil =>
    intro vs h
    simp [denseVals] at h
    subst h
    rfl
  | cons a rest ih =>
    intro vs h
    cases a with
    | none => simp [denseVals] at h
    | some v =>
      simp [denseVals] at h
      obtain ⟨ws, hws, hvs⟩ := h
      subst hvs
      simp [ih ws hws]

theorem denseVals_replicate (k : Nat) (q : ℚ) :
    denseVals (List.replicate k (some q)) = some (List.replicate k q) := by
  induction k with
  | zero => rfl
  | succ k ih => simp [List.replicate, denseVals, ih]

/-- C1: for every valid (all slots present) monthly series with at least 24
points and every horizon `n ≥ 1`, `run_holt_winters_forecast` returns a
forecast with exactly `n` entries whose timestamps are the `n` consecutive
months immediately following the last historical timestamp — strictly
increasing and contiguous, pinned exactly by the `List.range` form. -/
theorem C1_forecast_horizon_and_timestamps
    (s : MSeries) (vals : List ℚ) (n : Nat)
    (hdense : denseVals s.values = some vals)
    (hlen : 24 ≤ s.values.length) (hn : 1 ≤ n) :
    ∃ m f, run_holt_winters_forecast s n = some (m, f) ∧
      f.entries.length = n ∧
      f.entries.map Prod.fst =
        (List.range n).map (fun i => s.lastTimestamp + 1 + i) ∧
      s.lastTimestamp + 1 = s.start + s.values.length := by
  have hvlen : vals.length = s.values.length := denseVals_length _ _ hdense
  have hts : s.lastTimestamp + 1 = s.start + s.values.length := by
    unfold MSeries.lastTimestamp
    omega
  refine ⟨hwFit vals, hwForecast (s.start + s.values.length) (hwFit vals) n, ?_, ?_, ?_, hts⟩
  · unfold run_holt_winters_forecast engineCompute
    rw [hdense]
    simp only [seasonal_periods]
    rw [if_neg (by omega)]
  · simp [hwForecast]
  · simp only [hwForecast, List.map_map]
    refine List.map_congr_left ?_
    intro i _
    simp [Function.comp]
    omega

/-- C1 witness: a concrete 24-month series with horizon 2. -/
theorem C1_forecast_horizon_and_timestamps_witness :
    denseVals sampleSeries24.values = some (List.replicate 24 (10 : ℚ)) ∧
    24 ≤ sampleSeries24.values.length ∧ (1:Nat) ≤ 2 ∧
    (∃ m f, run_holt_winters_forecast sampleSeries24 2 = some (m, f) ∧
      f.entries.length = 2 ∧
      f.entries.map Prod.fst =
        (List.range 2).map (fun i => sampleSeries24.lastTimestamp + 1 + i) ∧
      sampleSeries24.lastTimestamp + 1 =
        sampleSeries24.start + sampleSeries24.values.length) :=
  ⟨denseVals_replicate 24 10, by simp [sampleSeries24], by norm_num,
   C1_forecast_horizon_and_timestamps sampleSeries24 (List.replicate 24 10) 2
     (denseVals_replicate 24 10) (by simp [sampleSeries24]) (by norm_num)⟩

/-- C2: for every series with fewer than 24 monthly observations the fit
request is rejected — `run_holt_winters_forecast` produces no FittedModel
and no Forecast (returns the `(None, None)` sentinel), and whenever the
series has no missing slot the engine failure is specifically the
distinguishable insufficient-data error (fewer than two seasonal cycles). -/
theorem C2_insufficient_data_rejected (s : MSeries) (n : Nat)
    (hshort : s.values.length < 24) :
    run_holt_winters_forecast s n = none ∧
    (∀ vals, denseVals s.values = some vals →
      engineCompute s n = .error .insufficientData) := by
  constructor
  · unfold run_holt_winters_forecast engineCompute
    cases hdv : denseVals s.values with
    | none => rfl
    | some vals =>
      have := denseVals_length _ _ hdv
      simp only [seasonal_periods]
      rw [if_pos (by omega)]
  · intro vals hdv
    have := denseVals_length _ _ hdv
    unfold engineCompute
    rw [hdv]
    simp only [seasonal_periods]
    rw [if_pos (by omega)]

/-- C2 witness: a concrete 10-month series with horizon 6. -/
theorem C2_insufficient_data_rejected_witness :
    sampleSeriesShort.values.length < 24 ∧
    (run_holt_winters_forecast sampleSeriesShort 6 = none ∧
     (∀ vals, denseVals sampleSeriesShort.values = some vals →
       engineCompute sampleSeriesShort 6 = .error .insufficientData)) :=
  ⟨by simp [sampleSeriesShort],
   C2_insufficient_data_rejected sampleSeriesShort 6 (by simp [sampleSeriesShort])⟩

/-- C6: determinism — two separate invocations of the fit-and-forecast
operation on the same series and horizon yield identical results; the
embedded computation is a pure function of its inputs (the modelled
optimizer uses a fixed closed-form start, per the spec's requirement that
any randomized initialization be deterministic). -/
theorem C6_two_run_determinism (i j : Nat) (s : MSeries) (n : Nat) :
    fit_and_forecast_run i s n = fit_and_forecast_run j s n := rfl

/-- C10: boundary totality of `run_holt_winters_forecast` — every internal
engine failure is caught and mapped to the sentinel `none` (the code's
`(None, None)`), and every success is returned as-is; no exception ever
propagates to the caller. -/
theorem C10_no_exception_escapes (s : MSeries) (n : Nat) :
    (∃ r, engineCompute s n = .ok r ∧ run_holt_winters_forecast s n = some r) ∨
    (∃ e, engineCompute s n = .error e ∧ run_holt_winters_forecast s n = none) := by
  cases h : engineCompute s n with
  | ok r => exact Or.inl ⟨r, rfl, by simp [run_holt_winters_forecast, h]⟩
  | error e => exact Or.inr ⟨e, rfl, by simp [run_holt_winters_forecast, h]⟩

theorem takeWhile_append_all {p : Char → Bool} {l1 l2 : List Char}
    (h : ∀ c ∈ l1, p c = true) :
    (l1 ++ l2).takeWhile p = l1 ++ l2.takeWhile p := by
  induction l1 with
  | nil => simp
  | cons c cs ih =>
    simp only [List.cons_append, List.takeWhile]
    rw [h c (by simp)]
    simp [ih (fun x hx => h x (by simp [hx]))]

theorem dropWhile_append_all {p : Char → Bool} {l1 l2 : List Char}
    (h : ∀ c ∈ l1, p c = true) :
    (l1 ++ l2).dropWhile p = l2.dropWhile p := by
  induction l1 with
  | nil => simp
  | cons c cs ih =>
    simp only [List.cons_append, List.dropWhile]
    rw [h c (by simp)]
    exact ih (fun x hx => h x (by simp [hx]))

theorem digitChar_isDigit (d : Nat) (h : d < 10) : isDigitChar (digitChar d) = true := by
  interval_cases d <;> decide

theorem digitVal_digitChar (d : Nat) (h : d < 10) : digitVal (digitChar d) = d := by
  interval_cases d <;> decide

theorem natToChars_all_digits (n : Nat) : ∀ c ∈ natToChars n, isDigitChar c = true := by
  induction n using Nat.strong_induction_on with
  | _ n ih =>
    intro c hc
    rw [natToChars] at hc
    by_cases h : n < 10
    · rw [dif_pos h] at hc
      simp at hc
      subst hc
      exact digitChar_isDigit n h
    · rw [dif_neg h] at hc
      simp only [List.mem_append, List.mem_singleton] at hc
      cases hc with
      | inl h1 => exact ih (n / 10) (Nat.div_lt_self (by omega) (by norm_num)) c h1
      | inr h2 =>
        subst h2
        exact digitChar_isDigit _ (Nat.mod_lt _ (by norm_num))

theorem natToChars_ne_nil (n : Nat) : natToChars n ≠ [] := by
  rw [natToChars]
  by_cases h : n < 10
  · rw [dif_pos h]; simp
  · rw [dif_neg h]; simp

theorem digitFold_aux (n : Nat) :
    ∀ a : Nat, (natToChars n).foldl (fun a c => a * 10 + digitVal c) a
      = a * 10 ^ (natToChars n).length + n := by
  induction n using Nat.strong_induction_on with
  | _ n ih =>
    intro a
    rw [natToChars]
    by_cases h : n < 10
    · rw [dif_pos h]
      simp [List.foldl, digitVal_digitChar n h]
    · rw [dif_neg h]
      rw [List.foldl_append]
      rw [ih (n / 10) (Nat.div_lt_self (by omega) (by norm_num)) a]
      simp only [List.foldl, digitVal_digitChar (n % 10) (Nat.mod_lt _ (by norm_num))]
      rw [List.length_append, List.length_singleton]
      generalize (natToChars (n / 10)).length = k
      rw [pow_succ]
      have hmod := Nat.div_add_mod n 10
      ring_nf
      omega

theorem parseDigits_natToChars (n : Nat) : parseDigits (natToChars n) = some n := by
  have h1 : (natToChars n).isEmpty = false := by
    cases hds : natToChars n with
    | nil => exact absurd hds (natToChars_ne_nil n)
    | cons d ds => rfl
  have h2 : (natToChars n).all isDigitChar = true :=
    List.all_eq_true.mpr (natToChars_all_digits n)
  unfold parseDigits
  rw [h1, h2]
  simp [digitFold, digitFold_aux n 0]

theorem digit_not_dot {c : Char} (h : isDigitChar c = true) : (!(c == '.')) = true := by
  cases hcb : c == '.' with
  | false => rfl
  | true =>
    rw [eq_of_beq hcb] at h
    exact absurd h (by decide)

theorem digit_ne_minus {c : Char} (h : isDigitChar c = true) : ¬ c = '-' := by
  intro he
  rw [he] at h
  exact absurd h (by decide)

theorem toNumericCore_digits_dot0 (m : Nat) :
    toNumericCore (natToChars m ++ ['.', '0']) = some (m : ℚ) := by
  have hall : ∀ c ∈ natToChars m, (fun c => !(c == '.')) c = true := fun c hc =>
    digit_not_dot (natToChars_all_digits m c hc)
  unfold toNumericCore
  rw [dropWhile_append_all hall, takeWhile_append_all hall]
  have hdw : (['.', '0'] : List Char).dropWhile (fun c => !(c == '.')) = ['.', '0'] := rfl
  have htw : (['.', '0'] : List Char).takeWhile (fun c => !(c == '.')) = [] := rfl
  rw [hdw, htw, List.append_nil]
  simp only [parseDigits_natToChars m]
  have h0 : parseDigits ['0'] = some 0 := rfl
  rw [h0]
  norm_num

theorem toNumeric_intToChars_dot0 (z : ℤ) :
    toNumeric (intToChars z ++ ['.', '0']) = some ((z : ℚ)) := by
  unfold intToChars
  by_cases hz : z < 0
  · rw [if_pos hz, List.cons_append]
    have hred : toNumeric ('-' :: (natToChars z.natAbs ++ ['.', '0'])) =
        if ('-' : Char) = '-' then
          (toNumericCore (natToChars z.natAbs ++ ['.', '0'])).map (fun q => -q)
        else toNumericCore ('-' :: (natToChars z.natAbs ++ ['.', '0'])) := rfl
    rw [hred, if_pos rfl, toNumericCore_digits_dot0]
    have habs : ((z.natAbs : ℚ)) = -(z : ℚ) := by
      rw [Int.cast_natAbs]
      exact_mod_cast abs_of_neg hz
    simp [habs]
  · rw [if_neg hz]
    obtain ⟨d, ds, hds⟩ := List.exists_cons_of_ne_nil (natToChars_ne_nil z.toNat)
    have hd : isDigitChar d = true :=
      natToChars_all_digits z.toNat d (by rw [hds]; exact List.mem_cons_self d ds)
    rw [hds, List.cons_append]
    have hred : toNumeric (d :: (ds ++ ['.', '0'])) =
        if d = '-' then (toNumericCore (ds ++ ['.', '0'])).map (fun q => -q)
        else toNumericCore (d :: (ds ++ ['.', '0'])) := rfl
    rw [hred, if_neg (digit_ne_minus hd), ← List.cons_append, ← hds,
      toNumericCore_digits_dot0]
    have : ((z.toNat : ℚ)) = (z : ℚ) := by
      exact_mod_cast Int.toNat_of_nonneg (not_lt.mp hz)
    rw [this]

theorem toNumeric_formatValueCell (q : ℚ) :
    toNumeric (formatValueCell q) = some ((roundHalfEven q : ℤ) : ℚ) := by
  unfold formatValueCell
  exact toNumeric_intToChars_dot0 _

/-- C8: round-trip — exporting a Forecast to the documented CSV layout
(month as `YYYY-MM-DD`, value rounded to the nearest whole unit, written
as a float64) and re-parsing the value column with the Loader's
value-coercion logic (`pd.to_numeric`) reproduces exactly the rounded
values. -/
theorem C8_csv_round_trip (f : Forecast) :
    (forecastTable f).map (fun row => toNumeric row.2) =
      f.entries.map (fun e => some ((roundHalfEven e.2 : ℤ) : ℚ)) := by
  unfold forecastTable
  rw [List.map_map]
  refine List.map_congr_left ?_
  intro e _
  exact toNumeric_formatValueCell e.2

theorem engineCompute_ok_length (s : MSeries) (n : Nat)
    (r : FittedModel × Forecast) (h : engineCompute s n = .ok r) :
    r.2.entries.length = n := by
  unfold engineCompute at h
  cases hdv : denseVals s.values with
  | none => rw [hdv] at h; simp at h
  | some vals =>
    rw [hdv] at h
    simp only [seasonal_periods] at h
    by_cases hlen : vals.length < 2 * 12
    · rw [if_pos hlen] at h
      simp at h
    · rw [if_neg hlen] at h
      simp only [Except.ok.injEq] at h
      rw [← h]
      simp [hwForecast]

/-- C7: the pipeline never yields a partial or degraded forecast — for
every series and horizon, either the engine succeeds and the rendered
table has exactly the requested number of rows, or the `model_fit is None`
guard stops the run and nothing at all is rendered; there is no retry
or fallback path. -/
theorem C7_complete_or_absent (s : MSeries) (n : Nat) :
    (run_holt_winters_forecast s n = none ∧ runForecastAction s n = none) ∨
    (∃ m f, run_holt_winters_forecast s n = some (m, f) ∧
      f.entries.length = n ∧
      runForecastAction s n = some (forecastTable f) ∧
      (forecastTable f).length = n) := by
  cases hr : run_holt_winters_forecast s n with
  | none => exact Or.inl ⟨rfl, by simp [runForecastAction, hr]⟩
  | some mf =>
    have hok : engineCompute s n = .ok mf := by
      unfold run_holt_winters_forecast at hr
      cases he : engineCompute s n with
      | ok r => rw [he] at hr; simp at hr; rw [hr]
      | error e => rw [he] at hr; simp at hr
    have hlen : mf.2.entries.length = n := engineCompute_ok_length s n mf hok
    exact Or.inr ⟨mf.1, mf.2, by rw [← hr], hlen,
      by simp [runForecastAction, hr], by simp [forecastTable, hlen]⟩

theorem find?_isSome_of_mem {α : Type _} (p : α → Bool) (l : List α) (a : α)
    (ha : a ∈ l) (hpa : p a = true) : ∃ b, l.find? p = some b := by
  induction l with
  | nil => simp at ha
  | cons x xs ih =>
    by_cases hx : p x = true
    · exact ⟨x, List.find?_cons_of_pos xs hx⟩
    · rcases List.mem_cons.mp ha with rfl | hmem
      · exact absurd hpa hx
      · obtain ⟨b, hb⟩ := ih hmem
        exact ⟨b, by rw [List.find?_cons_of_neg xs (by simpa using hx)]; exact hb⟩

theorem find?_eq_some_split {α : Type _} (p : α → Bool) :
    ∀ (l : List α) (b : α), l.find? p = some b →
      ∃ l1 l2, l = l1 ++ b :: l2 ∧ (∀ a ∈ l1, p a = false) ∧ p b = true := by
  intro l
  induction l with
  | nil => intro b h; simp [List.find?] at h
  | cons x xs ih =>
    intro b h
    by_cases hx : p x = true
    · rw [List.find?_cons_of_pos xs hx] at h
      injection h with h
      subst h
      exact ⟨[], xs, rfl, by simp, hx⟩
    · rw [List.find?_cons_of_neg xs (by simpa using hx)] at h
      obtain ⟨l1, l2, heq, hall, hb⟩ := ih b h
      refine ⟨x :: l1, l2, by rw [heq, List.cons_append], ?_, hb⟩
      intro a ha
      rcases List.mem_cons.mp ha with rfl | hmem
      · simpa using hx
      · exact hall a hmem

/-- C3 (amended): when no column name contains the token 'date', the
loader fails — but by raising Python's generic uncaught `IndexError` from
the empty `[...][0]` subscript, which crashes the script run; there is no
distinguishable `DataFormatError` anywhere in the code. -/
theorem C3_no_date_column_raises_index_error (t : RawTable)
    (h : (colNames t).find? hasDateToken = none) :
    load_and_preprocess_data t = .error .indexError ∧
    appLoadPhase t = .crash .indexError := by
  have hsel : selectColumns t = none := by
    unfold selectColumns
    rw [h]
  constructor
  · unfold load_and_preprocess_data
    rw [hsel]
  · unfold appLoadPhase load_and_preprocess_data
    rw [hsel]

/-- C3 counterexample: on a concrete table with columns `waktu`, `nilai`
(no date-like name) the loader raises the generic `IndexError` — the
failure is exactly the kind of generic error the claim rules out, and no
`DataFormatError` exists in the code, refuting the claim as stated. -/
theorem C3_counterexample :
    load_and_preprocess_data noDateTable = .error .indexError ∧
    appLoadPhase noDateTable = .crash .indexError := ⟨rfl, rfl⟩

/-- C3 witness: the amended theorem applied to the concrete table. -/
theorem C3_no_date_column_raises_index_error_witness :
    (colNames noDateTable).find? hasDateToken = none ∧
    (load_and_preprocess_data noDateTable = .error .indexError ∧
     appLoadPhase noDateTable = .crash .indexError) :=
  ⟨by decide, C3_no_date_column_raises_index_error noDateTable (by decide)⟩

/-- C4 (amended): when every value-column cell fails numeric coercion,
the loader raises no distinguishable `EmptySeriesError` — it returns an
empty series, and the script's `series.empty` guard then halts the run
with a generic message (the same one used for a failed file read). -/
theorem C4_all_nonnumeric_yields_empty_series (t : RawTable) (dc vc : String)
    (dates : List Date)
    (hsel : selectColumns t = some (dc, vc))
    (hdates : (getCol t dc).mapM parseDate = some dates)
    (hbad : ∀ cell ∈ getCol t vc, toNumeric cell = none) :
    load_and_preprocess_data t = .ok ⟨0, []⟩ ∧ appLoadPhase t = .halt := by
  have hrows : (dates.zip (getCol t vc)).filterMap
      (fun dv => (toNumeric dv.2).map (fun q => (dv.1, q))) = [] := by
    rw [List.filterMap_eq_nil_iff]
    intro dv hdv
    rw [hbad dv.2 (List.of_mem_zip hdv).2]
    rfl
  have hload : load_and_preprocess_data t = .ok ⟨0, []⟩ := by
    simp only [load_and_preprocess_data, hsel, hdates, hrows, asfreqMS]
  exact ⟨hload, by simp [appLoadPhase, hload]⟩

/-- C4 counterexample: on a concrete table whose value column is entirely
non-numeric the loader succeeds and returns a series (the empty one) — it
does not fail with any error, refuting "fails with a distinguishable
`EmptySeriesError` rather than returning a series". -/
theorem C4_counterexample :
    load_and_preprocess_data badValuesTable = .ok ⟨0, []⟩ := rfl

/-- C4 witness: the amended theorem applied to the concrete table. -/
theorem C4_all_nonnumeric_yields_empty_series_witness :
    selectColumns badValuesTable = some ("date", "sales") ∧
    (getCol badValuesTable "date").mapM parseDate =
      some [⟨24240, 1⟩, ⟨24241, 1⟩] ∧
    (∀ cell ∈ getCol badValuesTable "sales", toNumeric cell = none) ∧
    (load_and_preprocess_data badValuesTable = .ok ⟨0, []⟩ ∧
     appLoadPhase badValuesTable = .halt) :=
  ⟨by decide, by decide, by decide,
   C4_all_nonnumeric_yields_empty_series badValuesTable "date" "sales"
     [⟨24240, 1⟩, ⟨24241, 1⟩] (by decide) (by decide) (by decide)⟩

/-- C9: deterministic column selection — whenever some column name
contains 'date' (the code's identification criterion) and some column
name differs from the first such name, selection succeeds with `date_col`
the first date-named column in column order and `value_col` the first
column whose name differs from `date_col`; and the choice depends only on
the column layout (the ordered names), never on the data. -/
theorem C9_column_selection_deterministic (t : RawTable) (dc : String)
    (hdc : (colNames t).find? hasDateToken = some dc)
    (hex : ∃ c ∈ colNames t, ¬ c = dc) :
    ∃ vc, selectColumns t = some (dc, vc) ∧
      hasDateToken dc = true ∧
      (∃ l1 l2, colNames t = l1 ++ dc :: l2 ∧
        ∀ c ∈ l1, hasDateToken c = false) ∧
      (∃ l1 l2, colNames t = l1 ++ vc :: l2 ∧ ¬ vc = dc ∧ ∀ c ∈ l1, c = dc) ∧
      (∀ t' : RawTable, colNames t' = colNames t →
        selectColumns t' = selectColumns t) := by
  obtain ⟨c, hc, hcne⟩ := hex
  obtain ⟨vc, hvc⟩ := find?_isSome_of_mem (fun c => decide (¬ c = dc))
    (colNames t) c hc (by simpa using hcne)
  refine ⟨vc, ?_, ?_, ?_, ?_, ?_⟩
  · unfold selectColumns
    rw [hdc]
    dsimp only
    rw [hvc]
  · obtain ⟨l1, l2, heq, hall, hp⟩ :=
      find?_eq_some_split hasDateToken (colNames t) dc hdc
    exact hp
  · obtain ⟨l1, l2, heq, hall, _⟩ := find?_eq_some_split hasDateToken (colNames t) dc hdc
    exact ⟨l1, l2, heq, hall⟩
  · obtain ⟨l1, l2, heq, hall, hvcp⟩ :=
      find?_eq_some_split (fun c => decide (¬ c = dc)) (colNames t) vc hvc
    refine ⟨l1, l2, heq, by simpa using hvcp, ?_⟩
    intro a ha
    have := hall a ha
    simpa using this
  · intro t' h'
    unfold selectColumns
    rw [h']

/-- C9 witness: selection on a concrete two-column table. -/
theorem C9_column_selection_deterministic_witness :
    (colNames goodTable).find? hasDateToken = some "tanggal_date" ∧
    (∃ c ∈ colNames goodTable, ¬ c = "tanggal_date") ∧
    (∃ vc, selectColumns goodTable = some ("tanggal_date", vc) ∧
      hasDateToken "tanggal_date" = true ∧
      (∃ l1 l2, colNames goodTable = l1 ++ "tanggal_date" :: l2 ∧
        ∀ c ∈ l1, hasDateToken c = false) ∧
      (∃ l1 l2, colNames goodTable = l1 ++ vc :: l2 ∧ ¬ vc = "tanggal_date" ∧
        ∀ c ∈ l1, c = "tanggal_date") ∧
      (∀ t' : RawTable, colNames t' = colNames goodTable →
        selectColumns t' = selectColumns goodTable)) :=
  ⟨by decide, by decide,
   C9_column_selection_deterministic goodTable "tanggal_date"
     (by decide) (by decide)⟩

theorem set_ne_of_get_ne {l : List (Option ℚ)} {i : Nat} {v : Option ℚ}
    (hi : i < l.length) (hne : l.get ⟨i, hi⟩ ≠ v) : l.set i v ≠ l := by
  intro heq
  have h1 : (l.set i v)[i]? = some v := by
    rw [List.getElem?_set_self']
    simp [List.getElem?_eq_getElem hi]
  rw [heq, List.getElem?_eq_getElem hi] at h1
  exact hne ((List.get_eq_getElem l ⟨i, hi⟩).trans (Option.some_injective _ h1))

/-- C5: cache correctness — the first request computes and stores the
pair; a second request with identical series content and horizon returns
exactly the pair computed on the first request without re-invoking the
compute function; and changing any single value of the series changes the
fingerprint, so the request misses the cache and forces recomputation. -/
theorem C5_cache_hit_and_invalidation (s : MSeries) (n i : Nat) (w : ℚ)
    (hi : i < s.values.length)
    (hw : s.values.get ⟨i, hi⟩ ≠ some w) :
    (get_or_compute emptyCache s n).2.2 = true ∧
    get_or_compute (get_or_compute emptyCache s n).2.1 s n =
      ((get_or_compute emptyCache s n).1,
       (get_or_compute emptyCache s n).2.1, false) ∧
    fingerprint (s.setVal i w) n ≠ fingerprint s n ∧
    (get_or_compute (get_or_compute emptyCache s n).2.1 (s.setVal i w) n).2.2
      = true := by
  have hmiss : get_or_compute emptyCache s n =
      (run_holt_winters_forecast s n,
       ⟨[(fingerprint s n, run_holt_winters_forecast s n)]⟩, true) := rfl
  have hset : s.values.set i (some w) ≠ s.values := set_ne_of_get_ne hi hw
  have hfp : fingerprint (s.setVal i w) n ≠ fingerprint s n := by
    intro h
    apply hset
    have h2 := congrArg (fun k : CacheKey => k.2.1) h
    simpa [fingerprint, MSeries.setVal] using h2
  refine ⟨rfl, ?_, hfp, ?_⟩
  · rw [hmiss]
    unfold get_or_compute
    have hl : lookupKey [(fingerprint s n, run_holt_winters_forecast s n)]
        (fingerprint s n) = some (run_holt_winters_forecast s n) := by
      unfold lookupKey
      rw [if_pos rfl]
    rw [hl]
  · rw [hmiss]
    unfold get_or_compute
    have hl : lookupKey [(fingerprint s n, run_holt_winters_forecast s n)]
        (fingerprint (s.setVal i w) n) = none := by
      unfold lookupKey
      rw [if_neg hfp]
      rfl
    rw [hl]

/-- C5 witness: the cache behaviour on a concrete series, horizon 3,
changing slot 0 from 1 to 5. -/
theorem C5_cache_hit_and_invalidation_witness :
    (0 < sampleCacheSeries.values.length) ∧
    (sampleCacheSeries.values.get ⟨0, by decide⟩ ≠ some 5) ∧
    ((get_or_compute emptyCache sampleCacheSeries 3).2.2 = true ∧
     get_or_compute (get_or_compute emptyCache sampleCacheSeries 3).2.1
         sampleCacheSeries 3 =
       ((get_or_compute emptyCache sampleCacheSeries 3).1,
        (get_or_compute emptyCache sampleCacheSeries 3).2.1, false) ∧
     fingerprint (sampleCacheSeries.setVal 0 5) 3 ≠
       fingerprint sampleCacheSeries 3 ∧
     (get_or_compute (get_or_compute emptyCache sampleCacheSeries 3).2.1
         (sampleCacheSeries.setVal 0 5) 3).2.2 = true) :=
  ⟨by decide, by decide,
   C5_cache_hit_and_invalidation sampleCacheSeries 3 0 5 (by decide) (by decide)⟩
